import Mathlib

/-!
Verification of the JobLens job-analyzer extension core: quota ledger,
result cache, backend-error parsing, job identity and change detection,
resume field extraction, and the DOM-preserving generic extractor.
Each definition is a shallow embedding of the corresponding JavaScript
function; machine integers are modelled as `Int` with explicit 32-bit
wrapping where the source relies on it.
-/

namespace Quota

/-- `DAILY_LIMIT` from the background worker. -/
def DAILY_LIMIT : Int := 10

/-- The `rateLimit` record persisted in `chrome.storage.local`. -/
structure QuotaRecord where
  date : String
  remaining : Int
deriving Repr, DecidableEq

/-- The `rateLimit` storage slot; `none` models an absent key. -/
abbrev Store := Option QuotaRecord

/-- `checkAndDecrementRateLimit()` (background worker): lazily reset on a
new day, return `false` without writing when `remaining ≤ 0`, else
decrement and persist.  Result is (returned boolean, stored slot after). -/
def checkAndDecrementRateLimit (today : String) (s : Store) : Bool × Store :=
  let rl : QuotaRecord :=
    match s with
    | some r => if r.date = today then r else { date := today, remaining := DAILY_LIMIT }
    | none => { date := today, remaining := DAILY_LIMIT }
  if rl.remaining ≤ 0 then (false, s)
  else (true, some { rl with remaining := rl.remaining - 1 })

/-- `refundRateLimitToken()` (background worker): credit one token back,
capped at `DAILY_LIMIT`, only when a record for today is stored. -/
def refundRateLimitToken (today : String) (s : Store) : Store :=
  match s with
  | some r =>
      if r.date = today then
        some { r with remaining := min (r.remaining + 1) DAILY_LIMIT }
      else s
  | none => s

/-- The `remaining` field reported by `getRateLimitStatus()` (lazy reset
on read, nothing persisted). -/
def statusRemaining (today : String) (s : Store) : Int :=
  match s with
  | some r => if r.date = today then r.remaining else DAILY_LIMIT
  | none => DAILY_LIMIT

/-- The data-model invariant of a stored quota slot: a record for today
has `remaining ∈ [0, DAILY_LIMIT]`. -/
def Valid (today : String) : Store → Prop
  | some r => r.date = today → 0 ≤ r.remaining ∧ r.remaining ≤ DAILY_LIMIT
  | none => True

instance (today : String) : (s : Store) → Decidable (Valid today s)
  | some _ => by unfold Valid; infer_instance
  | none => by unfold Valid; infer_instance

/-- One debit or credit call against the shared store. -/
inductive QuotaOp where
  | debit
  | credit
deriving Repr, DecidableEq

/-- Effect of one operation on the stored slot. -/
def applyOp (today : String) (s : Store) : QuotaOp → Store
  | .debit => (checkAndDecrementRateLimit today s).2
  | .credit => refundRateLimitToken today s

/-- Effect of a sequence of operations, all on the same calendar day. -/
def applyOps (today : String) (s : Store) (ops : List QuotaOp) : Store :=
  ops.foldl (applyOp today) s

theorem valid_applyOp (today : String) (s : Store) (op : QuotaOp)
    (h : Valid today s) : Valid today (applyOp today s op) := by
  cases op with
  | debit =>
    cases s with
    | none =>
      simp only [applyOp, checkAndDecrementRateLimit, DAILY_LIMIT, Valid]
      norm_num
    | some r =>
      simp only [applyOp, checkAndDecrementRateLimit]
      by_cases hd : r.date = today
      · simp only [hd, if_true]
        simp only [Valid] at h
        have hb := h hd
        by_cases hz : r.remaining ≤ 0
        · simp only [hz, if_true]
          simpa [Valid] using h
        · simp only [hz, if_false]
          simp only [Valid]
          intro _
          simp only [DAILY_LIMIT] at hb ⊢
          omega
      · simp only [hd, if_false, DAILY_LIMIT]
        norm_num
        simp [Valid, DAILY_LIMIT]
  | credit =>
    cases s with
    | none => simpa [applyOp, refundRateLimitToken] using h
    | some r =>
      simp only [applyOp, refundRateLimitToken]
      by_cases hd : r.date = today
      · simp only [hd, if_true, Valid]
        intro _
        simp only [Valid] at h
        have hb := h hd
        simp only [DAILY_LIMIT] at hb ⊢
        omega
      · simp only [hd, if_false]
        simpa [Valid] using h

theorem valid_applyOps (today : String) (s : Store) (ops : List QuotaOp)
    (h : Valid today s) : Valid today (applyOps today s ops) := by
  induction ops generalizing s with
  | nil => simpa [applyOps] using h
  | cons op rest ih =>
    simp only [applyOps, List.foldl_cons]
    exact ih _ (valid_applyOp today s op h)

theorem statusRemaining_bounds (today : String) (s : Store)
    (h : Valid today s) :
    0 ≤ statusRemaining today s ∧ statusRemaining today s ≤ DAILY_LIMIT := by
  cases s with
  | none => simp [statusRemaining, DAILY_LIMIT]
  | some r =>
    simp only [statusRemaining]
    by_cases hd : r.date = today
    · simp only [hd, if_true]
      simp only [Valid] at h
      exact h hd
    · simp [hd, DAILY_LIMIT]

theorem debit_credit_restores (today : String) (s : Store)
    (h : Valid today s)
    (hdeb : (checkAndDecrementRateLimit today s).1 = true) :
    statusRemaining today
      (refundRateLimitToken today (checkAndDecrementRateLimit today s).2) =
    statusRemaining today s := by
  cases s with
  | none =>
    simp [checkAndDecrementRateLimit, refundRateLimitToken, statusRemaining,
      DAILY_LIMIT]
  | some r =>
    by_cases hd : r.date = today
    · simp only [Valid] at h
      have hb := h hd
      simp only [checkAndDecrementRateLimit, hd, if_true] at hdeb ⊢
      by_cases hz : r.remaining ≤ 0
      · simp [hz] at hdeb
      · simp only [hz, if_false, refundRateLimitToken, statusRemaining, hd,
          eq_self_iff_true, if_true]
        simp only [DAILY_LIMIT] at hb ⊢
        omega
    · simp only [checkAndDecrementRateLimit, hd, if_false] at hdeb ⊢
      norm_num [refundRateLimitToken, statusRemaining, hd, DAILY_LIMIT]

end Quota

/-- C1: Quota ledger invariant — starting from any valid stored record,
every prefix of any same-day sequence of `checkAndDecrementRateLimit`
and `refundRateLimitToken` operations keeps the reported `remaining`
within `[0, DAILY_LIMIT]`, and a debit returning `true` followed
immediately by a credit restores the prior `remaining` exactly. -/
theorem quota_ledger_invariant (today : String) (s : Quota.Store)
    (ops : List Quota.QuotaOp) (h : Quota.Valid today s) :
    (∀ pre suf : List Quota.QuotaOp, ops = pre ++ suf →
      0 ≤ Quota.statusRemaining today (Quota.applyOps today s pre) ∧
      Quota.statusRemaining today (Quota.applyOps today s pre) ≤ Quota.DAILY_LIMIT) ∧
    ((Quota.checkAndDecrementRateLimit today s).1 = true →
      Quota.statusRemaining today
        (Quota.refundRateLimitToken today
          (Quota.checkAndDecrementRateLimit today s).2) =
      Quota.statusRemaining today s) := by
  constructor
  · intro pre _ _
    exact Quota.statusRemaining_bounds today _ (Quota.valid_applyOps today s pre h)
  · exact Quota.debit_credit_restores today s h

/-- Witness for C1 at a concrete store and operation sequence. -/
theorem quota_ledger_invariant_witness :
    Quota.Valid "2026-10-11" (some ⟨"2026-10-11", 3⟩) ∧
    (0 ≤ Quota.statusRemaining "2026-10-11"
        (Quota.applyOps "2026-10-11" (some ⟨"2026-10-11", 3⟩)
          [Quota.QuotaOp.debit, Quota.QuotaOp.credit]) ∧
      Quota.statusRemaining "2026-10-11"
        (Quota.applyOps "2026-10-11" (some ⟨"2026-10-11", 3⟩)
          [Quota.QuotaOp.debit, Quota.QuotaOp.credit]) ≤ Quota.DAILY_LIMIT) := by
  have h : Quota.Valid "2026-10-11" (some ⟨"2026-10-11", 3⟩) := by decide
  refine ⟨h, ?_⟩
  exact (quota_ledger_invariant "2026-10-11" (some ⟨"2026-10-11", 3⟩)
    [Quota.QuotaOp.debit, Quota.QuotaOp.credit] h).1
    [Quota.QuotaOp.debit, Quota.QuotaOp.credit] [] rfl

namespace Cache

/-- `CACHE_TTL_MS` from the background worker: 24 hours. -/
def CACHE_TTL_MS : Int := 24 * 60 * 60 * 1000

/-- Signed 32-bit wrap-around, as produced by JavaScript `| 0` / `& n`. -/
def jsToInt32 (n : Int) : Int := (n + 2147483648) % 4294967296 - 2147483648

/-- One step of the `hashUrl` loop:
`hash = (hash << 5) - hash + char; hash = hash & hash`. -/
def hashStep (h : Int) (c : Nat) : Int := jsToInt32 (jsToInt32 (h * 32) - h + c)

/-- Digit character for `Number.prototype.toString(36)`. -/
def base36Digit (n : Nat) : Char :=
  if n < 10 then Char.ofNat (48 + n) else Char.ofNat (87 + n)

def toBase36Aux : Nat → Nat → List Char → List Char
  | 0, _, acc => acc
  | fuel + 1, n, acc =>
      if n = 0 then acc
      else toBase36Aux fuel (n / 36) (base36Digit (n % 36) :: acc)

/-- `Math.abs(hash).toString(36)` for a natural number.  The fuel `n + 1`
always exceeds the number of base-36 digits of `n`. -/
def toBase36 (n : Nat) : String :=
  if n = 0 then "0" else String.mk (toBase36Aux (n + 1) n [])

/-- `hashUrl(url)` (background worker): simple 32-bit rolling hash,
then absolute value rendered in base 36. -/
def hashUrl (url : String) : String :=
  toBase36 (url.data.foldl (fun h c => hashStep h c.toNat) 0).natAbs

/-- A `cache_<hash>` entry: `{result, timestamp, url}`. -/
structure CacheEntry (α : Type) where
  result : α
  timestamp : Int
  url : String
deriving Repr, DecidableEq

/-- The cache-relevant view of `chrome.storage.local`: each storage key
maps to at most one entry. -/
def CStore (α : Type) : Type := String → Option (CacheEntry α)

/-- `getCachedResult(url)` at time `now`: absent when the url is falsy or
no entry exists; an entry older than the TTL is deleted and reported
absent; otherwise the stored result is returned and the store is kept. -/
def getCachedResult (now : Int) (url : String) (s : CStore α) :
    Option α × CStore α :=
  if url = "" then (none, s)
  else
    let key := "cache_" ++ hashUrl url
    match s key with
    | none => (none, s)
    | some e =>
        if now - e.timestamp > CACHE_TTL_MS then
          (none, fun k => if k = key then none else s k)
        else (some e.result, s)

/-- `cacheResult(url, result)` at time `now`: overwrite the entry for the
derived key; falsy urls are ignored. -/
def cacheResult (now : Int) (url : String) (result : α) (s : CStore α) :
    CStore α :=
  if url = "" then s
  else fun k =>
    if k = "cache_" ++ hashUrl url then some ⟨result, now, url⟩ else s k

end Cache

/-- C4 counterexample: a read at exactly `T + 24h` still returns the
stored result — the code expires strictly after the TTL
(`now - timestamp > TTL`), so the claim's `T' ≥ T+24h → absent` is false
at `T' = T + 24h`. -/
theorem cache_ttl_boundary_counterexample :
    (Cache.getCachedResult Cache.CACHE_TTL_MS "u"
      (Cache.cacheResult 0 "u" "res" (fun _ => none))).1 = some "res" := by
  decide

/-- C4 (amended): after `put(url, result)` at time `T` on a non-empty
url, a `get(url)` at any `T' ≤ T+24h` returns the stored result and
leaves the store unchanged, while a `get(url)` at any `T' > T+24h`
returns absent, removes the entry, and leaves every other key intact. -/
theorem cache_ttl (α : Type) (url : String) (hurl : url ≠ "") (result : α)
    (T T' : Int) (s : Cache.CStore α) :
    (T' - T ≤ Cache.CACHE_TTL_MS →
      (Cache.getCachedResult T' url (Cache.cacheResult T url result s)).1 =
        some result ∧
      (Cache.getCachedResult T' url (Cache.cacheResult T url result s)).2 =
        Cache.cacheResult T url result s) ∧
    (T' - T > Cache.CACHE_TTL_MS →
      (Cache.getCachedResult T' url (Cache.cacheResult T url result s)).1 =
        none ∧
      (Cache.getCachedResult T' url (Cache.cacheResult T url result s)).2
        ("cache_" ++ Cache.hashUrl url) = none ∧
      ∀ k, k ≠ "cache_" ++ Cache.hashUrl url →
        (Cache.getCachedResult T' url (Cache.cacheResult T url result s)).2 k =
          Cache.cacheResult T url result s k) := by
  have hput : Cache.cacheResult T url result s
      ("cache_" ++ Cache.hashUrl url) = some ⟨result, T, url⟩ := by
    simp [Cache.cacheResult, hurl]
  constructor
  · intro hle
    simp only [Cache.getCachedResult, hurl, if_false, hput]
    have hnot : ¬ (T' - T > Cache.CACHE_TTL_MS) := by omega
    simp [hnot]
  · intro hgt
    simp only [Cache.getCachedResult, hurl, if_false, hput]
    simp only [hgt, if_true]
    refine ⟨by trivial, by simp, ?_⟩
    intro k hk
    simp [hk]

/-- Witness for C4 at concrete times on both sides of the boundary. -/
theorem cache_ttl_witness :
    ("u" : String) ≠ "" ∧
    (Cache.getCachedResult 5 "u"
      (Cache.cacheResult 0 "u" "res" (fun _ => none))).1 = some "res" ∧
    (Cache.getCachedResult (Cache.CACHE_TTL_MS + 1) "u"
      (Cache.cacheResult 0 "u" "res" (fun _ => none))).1 = none := by
  refine ⟨by decide, ?_, ?_⟩
  · exact ((cache_ttl String "u" (by decide) "res" 0 5 (fun _ => none)).1
      (by decide)).1
  · exact ((cache_ttl String "u" (by decide) "res" 0 (Cache.CACHE_TTL_MS + 1)
      (fun _ => none)).2 (by decide)).1

namespace Js

/-- JavaScript `String.prototype.toLowerCase` restricted to ASCII, which
is all the embedded pattern literals use. -/
def lcase (s : String) : String := String.mk (s.data.map Char.toLower)

/-- JavaScript `String.prototype.trim` (ASCII whitespace). -/
def trim (s : String) : String :=
  String.mk (((s.data.dropWhile Char.isWhitespace).reverse.dropWhile
    Char.isWhitespace).reverse)

def strIncludesAux (needle : List Char) : List Char → Bool
  | [] => needle.isEmpty
  | c :: cs => needle.isPrefixOf (c :: cs) || strIncludesAux needle cs

/-- JavaScript `hay.includes(needle)`. -/
def strIncludes (hay needle : String) : Bool :=
  strIncludesAux needle.data hay.data

def splitOnCharAux (sep : Char) : List Char → List (List Char)
  | [] => [[]]
  | c :: rest =>
      match splitOnCharAux sep rest with
      | [] => [[c]]
      | g :: gs => if c = sep then [] :: g :: gs else (c :: g) :: gs

/-- JavaScript `s.split(sep)` for a single separator character. -/
def splitOnChar (sep : Char) (s : String) : List String :=
  (splitOnCharAux sep s.data).map String.mk

def splitOnPredAux (p : Char → Bool) : List Char → List (List Char)
  | [] => [[]]
  | c :: rest =>
      match splitOnPredAux p rest with
      | [] => [[c]]
      | g :: gs => if p c then [] :: g :: gs else (c :: g) :: gs

/-- JavaScript `s.split(/[...]/)` for a character-class regex. -/
def splitOnPred (p : Char → Bool) (s : String) : List String :=
  (splitOnPredAux p s.data).map String.mk

/-- Case-insensitive literal match: on success returns the input minus
the matched prefix. -/
def matchLitCI : List Char → List Char → Option (List Char)
  | [], s => some s
  | _ :: _, [] => none
  | p :: ps, c :: cs => if c.toLower = p.toLower then matchLitCI ps cs else none

/-- JavaScript `\w` (= `[A-Za-z0-9_]`). -/
def isWordChar (c : Char) : Bool := c.isAlphanum || c = '_'

end Js

namespace Backend

/-- A parsed JSON value (output of `JSON.parse`; object fields are the
final, de-duplicated properties). -/
inductive Jval where
  | jnull
  | jbool (b : Bool)
  | jnum (n : Int)
  | jstr (s : String)
  | jarr (items : List Jval)
  | jobj (fields : List (String × Jval))
deriving Repr

def lookupField : List (String × Jval) → String → Option Jval
  | [], _ => none
  | (k, v) :: rest, key => if k = key then some v else lookupField rest key

/-- JavaScript truthiness of a JSON value. -/
def truthy : Jval → Bool
  | .jnull => false
  | .jbool b => b
  | .jnum n => n ≠ 0
  | .jstr s => s ≠ ""
  | .jarr _ => true
  | .jobj _ => true

mutual

/-- JavaScript `String(v)` on a JSON value (arrays join with commas and
render null elements as empty, objects stringify opaquely). -/
def jsToStr : Jval → String
  | .jnull => "null"
  | .jbool b => if b then "true" else "false"
  | .jnum n => toString n
  | .jstr s => s
  | .jarr l => String.intercalate "," (jsToStrList l)
  | .jobj _ => "[object Object]"

def jsToStrList : List Jval → List String
  | [] => []
  | .jnull :: rest => "" :: jsToStrList rest
  | v :: rest => jsToStr v :: jsToStrList rest

end

/-- `String(item?.msg || "")` from `parseBackendError`. -/
def itemMsg (item : Jval) : String :=
  match item with
  | .jobj fields =>
      match lookupField fields "msg" with
      | some v => if truthy v then jsToStr v else ""
      | none => ""
  | _ => ""

/-- Does one `detail` item mention the too-short job description? -/
def mentionsShortDescription (item : Jval) : Bool :=
  Js.strIncludes (Js.lcase (itemMsg item)) "job description is too short"

/-- `Array.isArray(parsed?.detail) ? parsed.detail : []`. -/
def detailList (v : Jval) : List Jval :=
  match v with
  | .jobj fields =>
      match lookupField fields "detail" with
      | some (.jarr l) => l
      | _ => []
  | _ => []

/-- A backend response body: its raw text together with the outcome of
`JSON.parse(bodyText || "{}")` (`none` models a parse exception). -/
structure BackendBody where
  text : String
  parsed : Option Jval

/-- The recoverable message for a 422 caused by a too-short description. -/
def SHORT_DESC_MSG : String :=
  "Could not read enough job description from this page yet. Scroll/open full job details and try again in a few seconds."

/-- The generic `Server error ${status}: ${bodyText}` message. -/
def genericServerError (status : Nat) (bodyText : String) : String :=
  "Server error " ++ toString status ++ ": " ++ bodyText

/-- `parseBackendError(status, bodyText)` (background worker). -/
def parseBackendError (status : Nat) (body : BackendBody) : String :=
  if status = 422 then
    match body.parsed with
    | some v =>
        if (detailList v).any mentionsShortDescription then SHORT_DESC_MSG
        else genericServerError status body.text
    | none => genericServerError status body.text
  else genericServerError status body.text

theorem data_append (a b : String) : (a ++ b).data = a.data ++ b.data := rfl

theorem short_ne_generic (status : Nat) (t : String) :
    SHORT_DESC_MSG ≠ genericServerError status t := by
  intro h
  have h2 := congrArg String.data h
  simp only [genericServerError, data_append, List.append_assoc] at h2
  have h3 := congrArg List.head? h2
  have h4 : SHORT_DESC_MSG.data.head? = some 'C' := rfl
  have h5 : ∀ l : List Char, ("Server error ".data ++ l).head? = some 'S' :=
    fun _ => rfl
  rw [h4, h5] at h3
  simp at h3

end Backend

/-- C9: a 422 response whose parsed body has a `detail` list containing
an item whose `msg` mentions the too-short job description surfaces the
recoverable scroll-and-retry message (distinct from the generic
`Server error 422: ...` string); every other non-2xx response surfaces
the generic status-derived message. -/
theorem backend_error_422_short_description (status : Nat)
    (body : Backend.BackendBody) :
    ((status = 422 ∧ ∃ v, body.parsed = some v ∧
        (Backend.detailList v).any Backend.mentionsShortDescription = true) →
      Backend.parseBackendError status body = Backend.SHORT_DESC_MSG ∧
      Backend.parseBackendError status body ≠
        Backend.genericServerError status body.text) ∧
    (¬ (status = 422 ∧ ∃ v, body.parsed = some v ∧
        (Backend.detailList v).any Backend.mentionsShortDescription = true) →
      Backend.parseBackendError status body =
        Backend.genericServerError status body.text) := by
  constructor
  · rintro ⟨h422, v, hp, hany⟩
    have : Backend.parseBackendError status body = Backend.SHORT_DESC_MSG := by
      simp [Backend.parseBackendError, h422, hp, hany]
    exact ⟨this, this ▸ Backend.short_ne_generic status body.text⟩
  · intro hn
    by_cases h422 : status = 422
    · cases hp : body.parsed with
      | none => simp [Backend.parseBackendError, h422, hp]
      | some v =>
        have hany : (Backend.detailList v).any Backend.mentionsShortDescription = false := by
          by_contra hc
          exact hn ⟨h422, v, hp, by simpa using hc⟩
        simp [Backend.parseBackendError, h422, hp, hany]
    · simp [Backend.parseBackendError, h422]

/-- Witness for C9: a concrete 422 body with a matching `detail` item,
and a concrete 500 body taking the generic branch. -/
theorem backend_error_422_witness :
    Backend.parseBackendError 422
      ⟨"raw", some (Backend.Jval.jobj [("detail",
        Backend.Jval.jarr [Backend.Jval.jobj
          [("msg", Backend.Jval.jstr "Job description is too short")]])])⟩ =
      Backend.SHORT_DESC_MSG ∧
    Backend.parseBackendError 500 ⟨"boom", none⟩ =
      Backend.genericServerError 500 "boom" := by
  constructor
  · exact ((backend_error_422_short_description 422 _).1
      ⟨rfl, _, rfl, by decide⟩).1
  · exact (backend_error_422_short_description 500 ⟨"boom", none⟩).2
      (by rintro ⟨h, _⟩; simp at h)

namespace Background

/-- The non-2xx / thrown outcome of the guarded `fetch` to `/analyze`
(an oracle input: network success, HTTP error, or a thrown error such
as a timeout). -/
inductive FetchOutcome (α : Type) where
  | ok (result : α)
  | httpError (status : Nat) (body : Backend.BackendBody)
  | netError (msg : String)

/-- The object `handleAnalyzeJob` resolves with. -/
structure AnalyzeResponse (α : Type) where
  success : Bool
  data : Option α := none
  fromCache : Bool := false
  error : Option String := none
  rateLimited : Bool := false

/-- `handleAnalyzeJob` either throws or resolves with a response. -/
inductive HandlerOutcome (α : Type) where
  | thrown (msg : String)
  | responded (r : AnalyzeResponse α)

/-- The storage state the handler touches: the quota slot and the cache. -/
structure BgState (α : Type) where
  quota : Quota.Store
  cache : Cache.CStore α

def RATE_LIMIT_MSG : String :=
  "Daily analysis limit reached (10/day). Resets at midnight."

/-- `handleAnalyzeJob({jobData, resumeText, url})` (background worker):
input validation, cache lookup, quota debit, guarded external call with
refund-on-failure, and caching of a fresh result.  The final `Bool`
records whether the external call was attempted. -/
def handleAnalyzeJob (today : String) (now : Int) (url : String)
    (resumeText jobTitle : String) (outcome : FetchOutcome α)
    (st : BgState α) : HandlerOutcome α × BgState α × Bool :=
  if Js.trim resumeText = "" then
    (.thrown "Resume is required. Please upload or paste your resume first.",
     st, false)
  else if jobTitle = "" then
    (.thrown "Job details are missing. Open a supported job page and try again.",
     st, false)
  else
    let g := Cache.getCachedResult now url st.cache
    match g.1 with
    | some c =>
        (.responded { success := true, data := some c, fromCache := true },
         { st with cache := g.2 }, false)
    | none =>
        let d := Quota.checkAndDecrementRateLimit today st.quota
        if d.1 then
          match outcome with
          | .ok result =>
              (.responded { success := true, data := some result, fromCache := false },
               { quota := d.2, cache := Cache.cacheResult now url result g.2 },
               true)
          | .httpError status body =>
              (.thrown (Backend.parseBackendError status body),
               { quota := Quota.refundRateLimitToken today d.2, cache := g.2 },
               true)
          | .netError msg =>
              (.thrown msg,
               { quota := Quota.refundRateLimitToken today d.2, cache := g.2 },
               true)
        else
          (.responded { success := false, error := some RATE_LIMIT_MSG, rateLimited := true },
           { st with cache := g.2 }, false)

end Background

/-- C6: when the quota debit succeeded and the external call fails (HTTP
error or thrown network/timeout error), the handler refunds the token
before propagating: it throws, and the reported remaining quota equals
its value before the attempt. -/
theorem failed_call_refunds_quota (α : Type) (today : String) (now : Int)
    (url resumeText jobTitle : String)
    (outcome : Background.FetchOutcome α) (st : Background.BgState α)
    (hv : Quota.Valid today st.quota)
    (hr : Js.trim resumeText ≠ "")
    (hj : jobTitle ≠ "")
    (hc : (Cache.getCachedResult now url st.cache).1 = none)
    (hdeb : (Quota.checkAndDecrementRateLimit today st.quota).1 = true)
    (hfail : ∀ r : α, outcome ≠ Background.FetchOutcome.ok r) :
    (∃ msg, (Background.handleAnalyzeJob today now url resumeText jobTitle
        outcome st).1 = Background.HandlerOutcome.thrown msg) ∧
    Quota.statusRemaining today
      (Background.handleAnalyzeJob today now url resumeText jobTitle
        outcome st).2.1.quota =
    Quota.statusRemaining today st.quota := by
  cases outcome with
  | ok r => exact absurd rfl (hfail r)
  | httpError status body =>
    simp only [Background.handleAnalyzeJob, hr, if_false, hj, hc, hdeb,
      if_true]
    exact ⟨⟨_, rfl⟩, Quota.debit_credit_restores today st.quota hv hdeb⟩
  | netError msg =>
    simp only [Background.handleAnalyzeJob, hr, if_false, hj, hc, hdeb,
      if_true]
    exact ⟨⟨_, rfl⟩, Quota.debit_credit_restores today st.quota hv hdeb⟩

/-- Witness for C6: concrete failing call on a half-used quota leaves the
reported remaining quota unchanged. -/
theorem failed_call_refunds_quota_witness :
    Quota.statusRemaining "2026-10-11"
      (Background.handleAnalyzeJob "2026-10-11" 0 "u" "my resume" "Engineer"
        (Background.FetchOutcome.netError "boom" : Background.FetchOutcome String)
        ⟨some ⟨"2026-10-11", 5⟩, fun _ => none⟩).2.1.quota =
    Quota.statusRemaining "2026-10-11" (some ⟨"2026-10-11", 5⟩) := by
  exact (failed_call_refunds_quota String "2026-10-11" 0 "u" "my resume"
    "Engineer" (Background.FetchOutcome.netError "boom")
    ⟨some ⟨"2026-10-11", 5⟩, fun _ => none⟩
    (by decide) (by decide) (by decide) (by decide) (by decide)
    (fun r h => Background.FetchOutcome.noConfusion h)).2

/-- C7: with today's quota record at `remaining = 0` and no cached
result, the debit returns `false` without mutating the stored record, no
external call is attempted, and the caller receives the rate-limited
failure response. -/
theorem quota_exhausted_short_circuits (α : Type) (today : String)
    (now : Int) (url resumeText jobTitle : String)
    (outcome : Background.FetchOutcome α) (st : Background.BgState α)
    (hr : Js.trim resumeText ≠ "")
    (hj : jobTitle ≠ "")
    (hq : st.quota = some ⟨today, 0⟩)
    (hc : (Cache.getCachedResult now url st.cache).1 = none) :
    Quota.checkAndDecrementRateLimit today st.quota = (false, st.quota) ∧
    (Background.handleAnalyzeJob today now url resumeText jobTitle
        outcome st).1 =
      Background.HandlerOutcome.responded
        { success := false, error := some Background.RATE_LIMIT_MSG,
          rateLimited := true } ∧
    (Background.handleAnalyzeJob today now url resumeText jobTitle
        outcome st).2.1.quota = st.quota ∧
    (Background.handleAnalyzeJob today now url resumeText jobTitle
        outcome st).2.2 = false := by
  have hfalse : Quota.checkAndDecrementRateLimit today st.quota =
      (false, st.quota) := by
    rw [hq]
    simp [Quota.checkAndDecrementRateLimit]
  refine ⟨hfalse, ?_, ?_, ?_⟩ <;>
    simp only [Background.handleAnalyzeJob, hr, if_false, hj, hc, hfalse] <;>
    rfl

/-- Witness for C7 at a concrete exhausted store. -/
theorem quota_exhausted_short_circuits_witness :
    (Background.handleAnalyzeJob "2026-10-11" 0 "u" "my resume" "Engineer"
        (Background.FetchOutcome.netError "boom" : Background.FetchOutcome String)
        ⟨some ⟨"2026-10-11", 0⟩, fun _ => none⟩).2.2 = false := by
  exact (quota_exhausted_short_circuits String "2026-10-11" 0 "u" "my resume"
    "Engineer" (Background.FetchOutcome.netError "boom")
    ⟨some ⟨"2026-10-11", 0⟩, fun _ => none⟩
    (by decide) (by decide) rfl (by decide)).2.2.2

namespace Content

/-- Leftmost match of `/linkedin\.com\/jobs\/view\/(\d+)/i`: scan for the
literal, then take the maximal digit run (which must be non-empty). -/
def scanViewId : List Char → Option String
  | [] => none
  | c :: cs =>
      match Js.matchLitCI "linkedin.com/jobs/view/".data (c :: cs) with
      | some rest =>
          let ds := rest.takeWhile Char.isDigit
          if ds.isEmpty then scanViewId cs else some (String.mk ds)
      | none => scanViewId cs

/-- Leftmost match of `/[?&]currentJobId=(\d+)/i`. -/
def scanCurrentJobId : List Char → Option String
  | [] => none
  | c :: cs =>
      if c = '?' || c = '&' then
        match Js.matchLitCI "currentjobid=".data cs with
        | some rest =>
            let ds := rest.takeWhile Char.isDigit
            if ds.isEmpty then scanCurrentJobId cs else some (String.mk ds)
        | none => scanCurrentJobId cs
      else scanCurrentJobId cs

/-- The fields of an extracted posting that job identity can read. -/
structure JobData where
  url : String
  title : String
  company : String
  description : String
deriving Repr, DecidableEq

/-- `getJobSignature(jobData)` (content script): lower-cased trimmed
`url|title|company` composite. -/
def getJobSignature (j : JobData) : String :=
  Js.lcase (Js.trim j.url) ++ "|" ++ Js.lcase (Js.trim j.title) ++ "|" ++
    Js.lcase (Js.trim j.company)

/-- `getJobIdentity(jobData)` (content script): prefer the LinkedIn
job-view id, then the `currentJobId` query parameter, then the
composite signature. -/
def getJobIdentity (j : JobData) : String :=
  match scanViewId j.url.data with
  | some d => "li_view_" ++ d
  | none =>
      match scanCurrentJobId j.url.data with
      | some d => "li_search_" ++ d
      | none => getJobSignature j

/-- The content script's mutable job-tracking state. -/
structure ContentState where
  currentJobData : Option JobData
  currentJobIdentity : String
  lastExtractionSuccessAt : Int
deriving Repr, DecidableEq

/-- The successful-extraction branch of `onPageChange`: recompute the
identity, always update the stored posting and success timestamp, and
report whether a "new job" event fires (`isNewJob`). -/
def onPageChangeSuccess (now : Int) (st : ContentState) (jobData : JobData) :
    ContentState × Bool :=
  let nextIdentity := getJobIdentity jobData
  let isNewJob := st.currentJobIdentity ≠ nextIdentity
  ({ currentJobData := some jobData, currentJobIdentity := nextIdentity,
     lastExtractionSuccessAt := now }, isNewJob)

end Content

/-- C5 counterexample: a URL carrying both a `/jobs/view/<id>` segment
and a `currentJobId` parameter gets identity `li_view_99`, not
`li_search_12345` — the view id takes priority, refuting the claim as
universally stated. -/
theorem job_identity_counterexample :
    Content.scanCurrentJobId
        "https://www.linkedin.com/jobs/view/99?currentJobId=12345".data =
      some "12345" ∧
    Content.getJobIdentity
        ⟨"https://www.linkedin.com/jobs/view/99?currentJobId=12345",
          "Senior Engineer", "Acme", ""⟩ = "li_view_99" ∧
    Content.getJobIdentity
        ⟨"https://www.linkedin.com/jobs/view/99?currentJobId=12345",
          "Senior Engineer", "Acme", ""⟩ ≠ "li_search_12345" := by
  refine ⟨by decide, by decide, by decide⟩

/-- C5 (amended): for a posting whose URL has no LinkedIn `/jobs/view/`
id but contains a numeric `currentJobId=N`, the identity is
`li_search_N` regardless of title, company or description; hence a
second successful extraction with the same URL but changed title keeps
the same identity, updates the current posting and success timestamp,
and does not fire a "new job" event. -/
theorem job_identity_current_job_id (p1 p2 : Content.JobData)
    (st : Content.ContentState) (now : Int) (d : String)
    (hurl : p2.url = p1.url)
    (hview : Content.scanViewId p1.url.data = none)
    (hcur : Content.scanCurrentJobId p1.url.data = some d)
    (hst : st.currentJobIdentity = Content.getJobIdentity p1) :
    Content.getJobIdentity p1 = "li_search_" ++ d ∧
    Content.getJobIdentity p2 = "li_search_" ++ d ∧
    (Content.onPageChangeSuccess now st p2).2 = false ∧
    (Content.onPageChangeSuccess now st p2).1.currentJobData = some p2 ∧
    (Content.onPageChangeSuccess now st p2).1.lastExtractionSuccessAt = now := by
  have h1 : Content.getJobIdentity p1 = "li_search_" ++ d := by
    simp [Content.getJobIdentity, hview, hcur]
  have h2 : Content.getJobIdentity p2 = "li_search_" ++ d := by
    simp [Content.getJobIdentity, hurl, hview, hcur]
  refine ⟨h1, h2, ?_, rfl, rfl⟩
  simp [Content.onPageChangeSuccess, hst, h1, h2]

/-- Witness for C5: the spec's scenario URL with a changed title fires no
"new job" event and stores the fresh posting. -/
theorem job_identity_current_job_id_witness :
    (Content.onPageChangeSuccess 7
      ⟨some ⟨"https://www.linkedin.com/jobs/search/?currentJobId=12345",
          "Senior Engineer", "Acme", ""⟩,
        Content.getJobIdentity
          ⟨"https://www.linkedin.com/jobs/search/?currentJobId=12345",
            "Senior Engineer", "Acme", ""⟩, 0⟩
      ⟨"https://www.linkedin.com/jobs/search/?currentJobId=12345",
        "Senior Engineer II", "Acme", ""⟩).2 = false := by
  exact (job_identity_current_job_id
    ⟨"https://www.linkedin.com/jobs/search/?currentJobId=12345",
      "Senior Engineer", "Acme", ""⟩
    ⟨"https://www.linkedin.com/jobs/search/?currentJobId=12345",
      "Senior Engineer II", "Acme", ""⟩
    ⟨some ⟨"https://www.linkedin.com/jobs/search/?currentJobId=12345",
        "Senior Engineer", "Acme", ""⟩,
      Content.getJobIdentity
        ⟨"https://www.linkedin.com/jobs/search/?currentJobId=12345",
          "Senior Engineer", "Acme", ""⟩, 0⟩
    7 "12345" rfl (by decide) (by decide) rfl).2.2.1

namespace Js

/-- `s.startsWith(pre)` via character lists. -/
def startsWithStr (s pre : String) : Bool := pre.data.isPrefixOf s.data

end Js

namespace Resume

/-- The character class `[@|linkedin|github|phone|mobile|\d{10}]` from
`extractName`: inside brackets this is a set of characters (with `|`,
`{`, `1`, `0`, `}` literal and `\d` the digits), not an alternation. -/
def nameSkipChars : List Char :=
  ['@', '|', 'l', 'i', 'n', 'k', 'e', 'd', 'g', 't', 'h', 'u', 'b', 'p',
   'o', 'm', '0', '1', '2', '3', '4', '5', '6', '7', '8', '9', '{', '}']

/-- Case-insensitive `test` of that class against a line. -/
def containsSkipChar (line : String) : Bool :=
  line.data.any (fun c => nameSkipChars.contains c.toLower)

def resumeHeaderWords : List String :=
  ["resume", "curriculum", "cv", "objective", "summary"]

def nameLoop : List String → String
  | [] => ""
  | l :: ls =>
      if containsSkipChar l then nameLoop ls
      else if l.length > 50 || l.length < 2 then nameLoop ls
      else if resumeHeaderWords.any
          (fun h => Js.startsWithStr (Js.lcase l) h) then nameLoop ls
      else l

/-- `extractName(text)` (resume parser): first of the first five
non-blank trimmed lines surviving the contact/length/header filters. -/
def extractName (text : String) : String :=
  nameLoop ((((Js.splitOnChar '\n' text).map Js.trim).filter
    (fun l => l ≠ "")).take 5)

def emailClass1 (c : Char) : Bool :=
  Js.isWordChar c || c = '.' || c = '+' || c = '-'

def emailClass2 (c : Char) : Bool := Js.isWordChar c || c = '-'

def emailClass3 (c : Char) : Bool := Js.isWordChar c || c = '.'

/-- One attempt of `/[\w.+-]+@[\w-]+\.[\w.]+/` at a position (each
character class is followed by a character outside it, so greedy
maximal runs are exact). -/
def matchEmailAt (cs : List Char) : Option (List Char) :=
  let s1 := cs.span emailClass1
  if s1.1.isEmpty then none
  else
    match s1.2 with
    | '@' :: r2 =>
        let s2 := r2.span emailClass2
        if s2.1.isEmpty then none
        else
          match s2.2 with
          | '.' :: r4 =>
              let s3 := r4.span emailClass3
              if s3.1.isEmpty then none
              else some (s1.1 ++ '@' :: (s2.1 ++ '.' :: s3.1))
          | _ => none
    | _ => none

def emailLoop : List Char → String
  | [] => ""
  | c :: cs =>
      match matchEmailAt (c :: cs) with
      | some m => String.mk m
      | none => emailLoop cs

/-- `extractEmail(text)`: first (leftmost) match, else empty string. -/
def extractEmail (text : String) : String := emailLoop text.data

def allSectionHeaders : List String :=
  ["experience", "work experience", "employment", "education", "skills",
   "technical skills", "projects", "certifications", "achievements",
   "summary", "objective", "contact", "references", "publications",
   "languages"]

/-- A line opens the target section. -/
def headingMatches (headings : List String) (lower : String) : Bool :=
  headings.any (fun h =>
    lower = h || Js.startsWithStr lower (h ++ ":") ||
      Js.startsWithStr lower (h ++ " "))

/-- A line closes the section (another known header, not a target). -/
def stopMatches (headings : List String) (lower : String) : Bool :=
  allSectionHeaders.any (fun h =>
    (lower = h || Js.startsWithStr lower (h ++ ":")) && !headings.contains h)

def sectionLoop (headings : List String) : List String → Bool → List String
  | [], _ => []
  | line :: rest, inSection =>
      let lower := Js.trim (Js.lcase line)
      if !inSection then
        if headingMatches headings lower then sectionLoop headings rest true
        else sectionLoop headings rest false
      else
        if stopMatches headings lower then []
        else line :: sectionLoop headings rest true

/-- `extractSection(text, headings)` (resume parser): accumulate the
lines between a matching heading and the next known section header.
Always returns a string; an unmatched heading yields `""`. -/
def extractSection (text : String) (headings : List String) : String :=
  Js.trim (String.intercalate "\n"
    (sectionLoop headings (Js.splitOnChar '\n' text) false))

/-- The seven `techPatterns` alternations, expanded to literal
alternatives in JavaScript trial order (greedy optional groups first). -/
def techPatterns : List (List String) :=
  [["python", "javascript", "typescript", "java", "c++", "c#", "ruby", "go",
    "rust", "scala", "php", "swift", "kotlin", "r", "matlab", "bash", "shell"],
   ["react.js", "react", "vue.js", "vue", "angular", "next.js", "next",
    "nuxt", "svelte", "html5", "html", "css3", "css", "sass", "less",
    "tailwind", "bootstrap", "jquery", "webpack", "vite"],
   ["node.js", "node", "express.js", "express", "django", "flask", "fastapi",
    "spring", "laravel", "rails", "asp.net", "graphql", "rest", "restful"],
   ["mysql", "postgresql", "postgres", "mongodb", "redis", "elasticsearch",
    "sqlite", "cassandra", "dynamodb", "firebase", "supabase", "prisma"],
   ["aws", "gcp", "azure", "docker", "kubernetes", "k8s", "ci/cd", "jenkins",
    "github actions", "terraform", "ansible", "linux", "nginx", "apache"],
   ["tensorflow", "pytorch", "scikit-learn", "pandas", "numpy", "keras",
    "hugging face", "llm", "nlp", "machine learning", "deep learning",
    "data science"],
   ["git", "github", "gitlab", "jira", "confluence", "figma", "postman",
    "swagger", "vs code", "intellij", "vim"]]

def wordB : Option Char → Bool
  | some c => Js.isWordChar c
  | none => false

/-- `\b` between two (optional) characters. -/
def boundaryOK (a b : Option Char) : Bool := wordB a != wordB b

/-- Try the alternatives in order at one position, with the surrounding
`\b` anchors; on success return the matched original characters. -/
def matchAltsAt : List String → Option Char → List Char → Option (List Char)
  | [], _, _ => none
  | a :: rest, prev, cs =>
      match Js.matchLitCI a.data cs with
      | some after =>
          let matched := cs.take a.length
          if boundaryOK prev cs.head? && boundaryOK matched.getLast? after.head?
          then some matched
          else matchAltsAt rest prev cs
      | none => matchAltsAt rest prev cs

/-- `text.matchAll(pattern)`: successive leftmost non-overlapping
matches.  `fuel` starts above the input length, which each step
decrements while the input shrinks by at least one character. -/
def scanMatches (alts : List String) : Nat → Option Char → List Char → List (List Char)
  | 0, _, _ => []
  | _ + 1, _, [] => []
  | fuel + 1, prev, c :: cs =>
      match matchAltsAt alts prev (c :: cs) with
      | some m =>
          m :: scanMatches alts fuel m.getLast? ((c :: cs).drop (max m.length 1))
      | none => scanMatches alts fuel (some c) cs

/-- The splitting class `[,\n\|•·▪◦\t]` of the skills section. -/
def skillSplitChar (c : Char) : Bool :=
  c = ',' || c = '\n' || c = '|' || c = '•' || c = '·' || c = '▪' ||
    c = '◦' || c = '\t'

/-- `s.replace(/[^\w\s.#+]/g, "")`. -/
def cleanToken (s : String) : String :=
  String.mk (s.data.filter (fun c =>
    Js.isWordChar c || c.isWhitespace || c = '.' || c = '#' || c = '+'))

/-- Insertion-ordered set insert (JavaScript `Set.add`). -/
def insertNew (l : List String) (s : String) : List String :=
  if l.contains s then l else l ++ [s]

def skillsHeadings : List String :=
  ["skills", "technical skills", "core competencies", "technologies",
   "tech stack", "tools", "competencies"]

/-- `extractSkills(text)` (resume parser): pattern matches over the
skills section if non-empty else the whole text, plus cleaned tokens
split out of the section, deduplicated in insertion order, capped at
60. -/
def extractSkills (text : String) : List String :=
  let sectionText := extractSection text skillsHeadings
  let rawText := if sectionText = "" then text else sectionText
  let fromPatterns := techPatterns.foldl (fun acc alts =>
    (scanMatches alts (rawText.data.length + 1) none rawText.data).foldl
      (fun acc2 m => insertNew acc2 (Js.trim (Js.lcase (String.mk m)))) acc) []
  let withSection :=
    if sectionText = "" then fromPatterns
    else
      (Js.splitOnPred skillSplitChar sectionText).foldl (fun acc2 t =>
        let s := Js.trim (cleanToken t)
        if s.length > 1 && s.length < 40 then insertNew acc2 (Js.lcase s)
        else acc2) fromPatterns
  (withSection.filter (fun s => (Js.trim s).length > 1)).take 60

/-- The education keyword alternation, expanded (`b\.?tech` etc.), plus
the bare `\d{4}` alternative handled separately. -/
def eduAlts : List String :=
  ["b.tech", "btech", "m.tech", "mtech", "b.e", "be", "m.e", "me", "b.sc",
   "bsc", "m.sc", "msc", "bca", "mca", "bachelor", "master", "phd",
   "diploma", "engineering", "computer science", "information technology"]

def eduTestLoop : List Char → Bool
  | [] => false
  | c :: cs =>
      (eduAlts.any fun a => (Js.matchLitCI a.data (c :: cs)).isSome) ||
      (((c :: cs).take 4).length = 4 && ((c :: cs).take 4).all Char.isDigit) ||
      eduTestLoop cs

/-- `test` of the education keyword regex (no word boundaries). -/
def eduKeywordTest (l : String) : Bool := eduTestLoop l.data

def eduHeadings : List String :=
  ["education", "academic", "degree", "qualification"]

/-- `extractEducation(text)`: keyword-bearing lines of the education
section with length in (5, 200), capped at 5. -/
def extractEducation (text : String) : List String :=
  let sectionText := extractSection text eduHeadings
  if sectionText = "" then []
  else
    ((((Js.splitOnChar '\n' sectionText).map Js.trim).filter
        (fun l => l.length > 5 && l.length < 200)).filter eduKeywordTest).take 5

def bulletChars : List Char := ['•', '·', '▪', '◦', '-', '*']

/-- `l.replace(/^[•·▪◦\-*]\s*/, "")`. -/
def stripBullet (s : String) : String :=
  match s.data with
  | c :: rest =>
      if bulletChars.contains c then String.mk (rest.dropWhile Char.isWhitespace)
      else s
  | [] => s

def extractListSection (text : String) (headings : List String) : List String :=
  let sectionText := extractSection text headings
  if sectionText = "" then []
  else
    (((Js.splitOnChar '\n' sectionText).map
        (fun l => Js.trim (stripBullet l))).filter
      (fun l => l.length > 5 && l.length < 150)).take 8

/-- `extractProjects(text)`. -/
def extractProjects (text : String) : List String :=
  extractListSection text ["projects", "personal projects", "side projects",
    "portfolio"]

/-- `extractCertifications(text)`. -/
def extractCertifications (text : String) : List String :=
  extractListSection text ["certifications", "certificates", "courses",
    "achievements", "awards"]

def pow10 : Nat → Nat
  | 0 => 1
  | n + 1 => 10 * pow10 n

def ratOfDigits (ds : List Char) : Nat :=
  ds.foldl (fun n c => n * 10 + (c.toNat - 48)) 0

/-- `parseFloat` of a `\d+\.?\d*` capture. -/
def capToRat (d1 d2 : List Char) : Rat :=
  (ratOfDigits d1 : Rat) + (ratOfDigits d2 : Rat) / (pow10 d2.length : Rat)

def tailAltP1 (r : List Char) : Bool :=
  (Js.matchLitCI "experience".data r).isSome ||
    (Js.matchLitCI "exp".data r).isSome ||
    (Js.matchLitCI "work".data r).isSome

/-- `\s+(?:of\s+)?(?:experience|exp|work)` (with the regex backtracking
out of the optional `of` group when the alternation fails after it). -/
def afterYearsP1 (r : List Char) : Bool :=
  let s := r.span Char.isWhitespace
  if s.1.isEmpty then false
  else
    match Js.matchLitCI "of".data s.2 with
    | some r2 =>
        let s2 := r2.span Char.isWhitespace
        (!s2.1.isEmpty && tailAltP1 s2.2) || tailAltP1 s.2
    | none => tailAltP1 s.2

/-- One attempt of `/(\d+\.?\d*)\+?\s*years?\s+(?:of\s+)?(?:experience|exp|work)/i`
at a position, returning the parsed capture. -/
def matchP1At (cs : List Char) : Option Rat :=
  let s1 := cs.span Char.isDigit
  if s1.1.isEmpty then none
  else
    let r2 := match s1.2 with
      | '.' :: t => t
      | _ => s1.2
    let s2 := r2.span Char.isDigit
    let r3 := match s2.2 with
      | '+' :: t => t
      | r => r
    let r4 := r3.dropWhile Char.isWhitespace
    match Js.matchLitCI "year".data r4 with
    | none => none
    | some r5 =>
        let r6 := match r5 with
          | c :: t => if c.toLower = 's' then t else r5
          | [] => r5
        if afterYearsP1 r6 then some (capToRat s1.1 s2.1) else none

def findP1 : List Char → Option Rat
  | [] => none
  | c :: cs =>
      match matchP1At (c :: cs) with
      | some v => some v
      | none => findP1 cs

/-- One attempt of `/experience[:\s]+(\d+\.?\d*)\+?\s*years?/i`. -/
def matchP2At (cs : List Char) : Option Rat :=
  match Js.matchLitCI "experience".data cs with
  | none => none
  | some r1 =>
      let s0 := r1.span (fun c => c = ':' || Char.isWhitespace c)
      if s0.1.isEmpty then none
      else
        let s1 := s0.2.span Char.isDigit
        if s1.1.isEmpty then none
        else
          let r2 := match s1.2 with
            | '.' :: t => t
            | _ => s1.2
          let s2 := r2.span Char.isDigit
          let r3 := match s2.2 with
            | '+' :: t => t
            | r => r
          let r4 := r3.dropWhile Char.isWhitespace
          match Js.matchLitCI "year".data r4 with
          | none => none
          | some _ => some (capToRat s1.1 s2.1)

def findP2 : List Char → Option Rat
  | [] => none
  | c :: cs =>
      match matchP2At (c :: cs) with
      | some v => some v
      | none => findP2 cs

/-- `20\d{2}`: a literal `20` followed by two digits. -/
def year2Digits : List Char → Option (Nat × List Char)
  | '2' :: '0' :: a :: b :: rest =>
      if a.isDigit && b.isDigit then
        some (2000 + 10 * (a.toNat - 48) + (b.toNat - 48), rest)
      else none
  | _ => none

def tryCurrentKeyword (cy : Int) (startY : Nat) (r4 : List Char) :
    Option (Int × List Char) :=
  match Js.matchLitCI "current".data r4 with
  | some r5 => if wordB r5.head? then none else some (cy - startY, r5)
  | none => none

def tryPresentKeyword (cy : Int) (startY : Nat) (r4 : List Char) :
    Option (Int × List Char) :=
  match Js.matchLitCI "present".data r4 with
  | some r5 =>
      if wordB r5.head? then tryCurrentKeyword cy startY r4
      else some (cy - startY, r5)
  | none => tryCurrentKeyword cy startY r4

/-- One attempt of `/\b(20\d{2})\s*[-–]\s*(20\d{2}|present|current)\b/i`
at a position whose previous character has word-ness `prevWord`:
returns (end − start, rest after match). -/
def matchYearRangeAt (cy : Int) (prevWord : Bool) (cs : List Char) :
    Option (Int × List Char) :=
  if prevWord then none
  else
    match year2Digits cs with
    | none => none
    | some (startY, r1) =>
        match r1.dropWhile Char.isWhitespace with
        | sep :: r3 =>
            if sep = '-' || sep = '–' then
              let r4 := r3.dropWhile Char.isWhitespace
              match year2Digits r4 with
              | some (endY, r5) =>
                  if wordB r5.head? then tryPresentKeyword cy startY r4
                  else some ((endY : Int) - (startY : Int), r5)
              | none => tryPresentKeyword cy startY r4
            else none
        | [] => none

def scanYearRangesAux (cy : Int) : Nat → Bool → List Char → List Int
  | 0, _, _ => []
  | _ + 1, _, [] => []
  | fuel + 1, prevWord, c :: cs =>
      match matchYearRangeAt cy prevWord (c :: cs) with
      | some (diff, rest) => diff :: scanYearRangesAux cy fuel true rest
      | none => scanYearRangesAux cy fuel (Js.isWordChar c) cs

/-- The (end − start) year differences of all matched ranges, in order. -/
def yearRangeDiffs (text : String) (cy : Int) : List Int :=
  scanYearRangesAux cy (text.data.length + 1) false text.data

/-- `totalMonths` accumulated by the fallback loop. -/
def totalMonths (text : String) (cy : Int) : Int :=
  12 * (yearRangeDiffs text cy).sum

/-- JavaScript `Math.round` (half away from minus infinity). -/
def jsRound (q : Rat) : Int := (q + (1 : Rat) / 2).floor

/-- `extractExperienceYears(text)` (resume parser) with the current
year supplied explicitly (`new Date().getFullYear()`). -/
def extractExperienceYears (text : String) (currentYear : Int) : Rat :=
  match findP1 text.data with
  | some v => v
  | none =>
      match findP2 text.data with
      | some v => v
      | none =>
          let tm := totalMonths text currentYear
          if tm > 0 then (jsRound ((tm : Rat) / 12) : Rat) else 0

/-- The record produced by `extractResumeFields`. -/
structure ParsedResume where
  name : String
  email : String
  skills : List String
  education : List String
  experienceYears : Rat
  projects : List String
  certifications : List String
deriving Repr, DecidableEq

/-- `extractResumeFields(text)` (resume parser). -/
def extractResumeFields (text : String) (currentYear : Int) : ParsedResume :=
  { name := extractName text
    email := extractEmail text
    skills := extractSkills text
    education := extractEducation text
    experienceYears := extractExperienceYears text currentYear
    projects := extractProjects text
    certifications := extractCertifications text }

end Resume

def scenario1 : String :=
  "John Doe\njohn@x.com\nSkills: Python, React, Docker\nEducation\nB.Tech Computer Science 2020"

/-- C2: on end-to-end scenario 1, email, skills and education come out
as specified, but `extractName` returns `""` rather than "John Doe":
the skip-regex `[@|linkedin|github|phone|mobile|\d{10}]` is a character
class, so any line containing letters like `o`, `h`, `n`, `e`, `d` is
skipped — every line of the input, "John Doe" included. -/
theorem resume_scenario1_extraction :
    Resume.extractName scenario1 = "" ∧
    Resume.extractEmail scenario1 = "john@x.com" ∧
    ((Resume.extractSkills scenario1).contains "python" = true ∧
      (Resume.extractSkills scenario1).contains "react" = true ∧
      (Resume.extractSkills scenario1).contains "docker" = true) ∧
    Resume.extractEducation scenario1 = ["B.Tech Computer Science 2020"] := by
  refine ⟨by decide, by decide, ⟨by decide, by decide, by decide⟩, by decide⟩

/-- C3 counterexample: with no matching heading, `extractSection`
returns the empty string itself — not a value distinct from it — and a
present-but-empty section returns the very same value, so the two
cases are indistinguishable to callers. -/
theorem section_absent_counterexample :
    Resume.extractSection "John Doe\nSoftware Engineer" ["skills"] = "" ∧
    Resume.extractSection "Skills:\nEducation\nB.Tech" ["skills"] = "" := by
  exact ⟨by decide, by decide⟩

theorem sectionLoop_none (headings : List String) (lines : List String)
    (h : ∀ l ∈ lines,
      Resume.headingMatches headings (Js.trim (Js.lcase l)) = false) :
    Resume.sectionLoop headings lines false = [] := by
  induction lines with
  | nil => rfl
  | cons l rest ih =>
    have h0 := h l (List.mem_cons_self l rest)
    simp [Resume.sectionLoop, h0]
    exact ih (fun x hx => h x (List.mem_cons_of_mem l hx))

/-- C3 (amended): if no line of the text matches any heading alias,
`extractSection` returns the empty string — the same value a
found-but-empty section produces — so callers (e.g. skills extraction)
fall back on the empty string, not on a distinct absent value. -/
theorem section_absent_returns_empty_string (text : String)
    (headings : List String)
    (h : ∀ l ∈ Js.splitOnChar '\n' text,
      Resume.headingMatches headings (Js.trim (Js.lcase l)) = false) :
    Resume.extractSection text headings = "" := by
  unfold Resume.extractSection
  rw [sectionLoop_none headings _ h]
  rfl

/-- Witness for C3 at a concrete alias-free text. -/
theorem section_absent_returns_empty_string_witness :
    Resume.extractSection "John Doe\nSoftware Engineer" ["education"] = "" := by
  exact section_absent_returns_empty_string "John Doe\nSoftware Engineer"
    ["education"] (by decide)

/-- C8 counterexample: the fallback range regex is `20\d{2}[-–]...`, so
the valid 4-digit range "1999-2003" is not found at all and the result
is 0, where the claim demands (2003−1999)×12/12 = 4. -/
theorem experience_years_counterexample :
    Resume.extractExperienceYears "1999-2003" 2024 = 0 ∧
    Resume.extractExperienceYears "1999-2003" 2024 ≠ 4 := by
  exact ⟨by decide, by decide⟩

theorem ratFloor_eq_intFloor (q : Rat) : q.floor = ⌊q⌋ := by
  rw [Rat.floor_def', Rat.floor_def]

theorem jsRound_int (s : Int) : Resume.jsRound ((s : Rat)) = s := by
  unfold Resume.jsRound
  rw [ratFloor_eq_intFloor]
  have h : ((s : Rat) + 1 / 2) = (1 / 2 : Rat) + (s : Int) := by ring
  rw [h, Int.floor_add_int]
  have h0 : ⌊(1 / 2 : Rat)⌋ = 0 := by
    rw [Int.floor_eq_zero_iff]
    constructor <;> norm_num
  rw [h0]
  ring

/-- C8 (amended): when neither direct experience pattern matches, the
result is the sum of (end − start) over every `20\d{2}-(20\d{2}|
present|current)` range found in the document when that sum is
positive, else 0 — the (end−start)×12 month total divided by 12 is
exact, so the rounding step is the identity. -/
theorem experience_years_fallback (text : String) (cy : Int)
    (h1 : Resume.findP1 text.data = none)
    (h2 : Resume.findP2 text.data = none) :
    Resume.extractExperienceYears text cy =
      (if 0 < (Resume.yearRangeDiffs text cy).sum
        then (((Resume.yearRangeDiffs text cy).sum : Int) : Rat) else 0) := by
  unfold Resume.extractExperienceYears
  rw [h1, h2]
  have hmul : Resume.totalMonths text cy =
      12 * (Resume.yearRangeDiffs text cy).sum := rfl
  by_cases hpos : 0 < (Resume.yearRangeDiffs text cy).sum
  · have htm : Resume.totalMonths text cy > 0 := by rw [hmul]; omega
    simp only [htm, if_true, hpos]
    rw [hmul]
    have hdiv : ((12 * (Resume.yearRangeDiffs text cy).sum : Int) : Rat) / 12 =
        (((Resume.yearRangeDiffs text cy).sum : Int) : Rat) := by
      push_cast
      ring
    rw [hdiv, jsRound_int]
  · have htm : ¬ (Resume.totalMonths text cy > 0) := by rw [hmul]; omega
    simp [htm, hpos]

/-- Witness for C8: the spec's example — "2019-2021" and "2022-present"
with the current year 2024 — yields 4. -/
theorem experience_years_fallback_witness :
    Resume.findP1 (String.data "Work history: 2019-2021 and 2022-present") =
      none ∧
    Resume.extractExperienceYears "Work history: 2019-2021 and 2022-present"
      2024 = 4 := by
  refine ⟨by decide, ?_⟩
  rw [experience_years_fallback _ 2024 (by decide) (by decide)]
  have hs : (Resume.yearRangeDiffs "Work history: 2019-2021 and 2022-present"
      2024).sum = 4 := by decide
  rw [hs]
  norm_num

namespace Dom

/-- A DOM element: tag, own text, and child elements (`innerText` is
modelled as the concatenated text content in document order). -/
inductive Node where
  | node (tag : String) (text : String) (children : List Node)

def tagOf : Node → String
  | .node t _ _ => t

mutual

/-- `clone.querySelectorAll(tag).forEach(n => n.remove())` over every tag
in the list: drop every descendant whose tag is listed (together with
its subtree). -/
def removeTags (tags : List String) : Node → Node
  | .node tag text children => .node tag text (removeTagsList tags children)

def removeTagsList (tags : List String) : List Node → List Node
  | [] => []
  | c :: rest =>
      if tags.contains (tagOf c) then removeTagsList tags rest
      else removeTags tags c :: removeTagsList tags rest

end

mutual

def innerText : Node → String
  | .node _ text children => text ++ innerTextList children

def innerTextList : List Node → String
  | [] => ""
  | c :: rest => innerText c ++ innerTextList rest

end

/-- The live page: a store of node objects addressed by reference. -/
abbrev Heap := List Node

def defaultNode : Node := .node "" "" []

/-- `el.cloneNode(true)`: allocate a fresh deep copy, returning its
reference. -/
def cloneNode (h : Heap) (r : Nat) : Heap × Nat :=
  (h ++ [h.getD r defaultNode], h.length)

/-- `s.slice(0, n)`. -/
def jsSlice (s : String) (n : Nat) : String := String.mk (s.data.take n)

/-- `extractMainContent(el)` (jobExtractor) / the description-stripping
step of `extractGeneric` (content script): clone the container, strip
the listed non-content tags from the clone only, and read the clone's
trimmed text capped at 8000 characters.  Returns the text and the heap
after the call. -/
def extractMainContent (h : Heap) (r : Nat) (tags : List String) :
    String × Heap :=
  let c := cloneNode h r
  let h2 := c.1.set c.2 (removeTags tags (c.1.getD c.2 defaultNode))
  (jsSlice (Js.trim (innerText (h2.getD c.2 defaultNode))) 8000, h2)

end Dom

/-- C10: the generic description extractor never mutates the host page —
every pre-existing node reference reads back unchanged after
`extractMainContent`, and the text produced is the stripped clone's
text (the strip happens on the copy, never on the page). -/
theorem extract_main_content_preserves_dom (h : Dom.Heap) (r : Nat)
    (tags : List String) (hr : r < h.length) :
    (∀ i, i < h.length →
      ((Dom.extractMainContent h r tags).2)[i]? = h[i]?) ∧
    (Dom.extractMainContent h r tags).1 =
      Dom.jsSlice (Js.trim (Dom.innerText
        (Dom.removeTags tags (h.getD r Dom.defaultNode)))) 8000 := by
  constructor
  · intro i hi
    simp only [Dom.extractMainContent, Dom.cloneNode]
    rw [List.getElem?_set_ne (by omega), List.getElem?_append, if_pos hi]
  · simp only [Dom.extractMainContent, Dom.cloneNode]
    have hget : (h ++ [h.getD r Dom.defaultNode]).getD h.length
        Dom.defaultNode = h.getD r Dom.defaultNode := by
      simp [List.getD, List.getElem?_concat_length]
    rw [hget]
    have hset : ((h ++ [h.getD r Dom.defaultNode]).set h.length
        (Dom.removeTags tags (h.getD r Dom.defaultNode))).getD h.length
        Dom.defaultNode = Dom.removeTags tags (h.getD r Dom.defaultNode) := by
      simp [List.getD]
    rw [hset]

/-- Witness for C10 on a concrete one-page heap with a nav child. -/
theorem extract_main_content_preserves_dom_witness :
    ((Dom.extractMainContent
        [Dom.Node.node "div" "hello " [Dom.Node.node "nav" "menu" [],
          Dom.Node.node "p" "world" []]] 0
        ["nav", "header", "footer", "script", "style"]).2)[0]? =
      some (Dom.Node.node "div" "hello " [Dom.Node.node "nav" "menu" [],
        Dom.Node.node "p" "world" []]) := by
  rw [(extract_main_content_preserves_dom
    [Dom.Node.node "div" "hello " [Dom.Node.node "nav" "menu" [],
      Dom.Node.node "p" "world" []]] 0
    ["nav", "header", "footer", "script", "style"] (by decide)).1 0 (by decide)]
  rfl
